import Mathlib

/-!
Verification development for the KidsSmart extraction pipeline
(`extractor.py`): a shallow embedding of the HTML → program-record
pipeline and proofs about it.

Modelling conventions:
* The BeautifulSoup document is modelled as a pre-queried structure `Doc`
  (JSON-LD script blocks as parsed JSON values with `none` for blocks on
  which `json.loads` raises, microdata items and list items as records of
  the attribute/text fields the extractor reads).  The parser itself is an
  arbitrary total function `String → Doc`, reflecting that BeautifulSoup
  accepts any input string.
* The external `dateparser.parse` library and the wall clock are modelled
  as an explicit context `DateCtx` (an abstract parse function plus "now").
* Python exceptions escaping a function are modelled by an `Option` result
  (`none` = the call raised); exceptions swallowed by `try/except` in the
  source are handled locally exactly where the source catches them.
* Strings are modelled over their character lists; case mapping and the
  whitespace class follow Python semantics restricted to ASCII, which
  covers every constant in the source.
* Python `float` amounts are modelled as `ℚ`; every numeric literal the
  pipeline handles is decimal, so no rounding behaviour is involved.
-/

/-- Python whitespace (the class matched by the regex `\s` and stripped by
`str.strip`), ASCII model. -/
def pySpace (c : Char) : Bool :=
  c == ' ' || c == '\t' || c == '\n' || c == '\r' || c == '\x0b' || c == '\x0c'

/-- Strip `pySpace` characters from both ends of a character list
(Python `str.strip`). -/
def pyStripChars (l : List Char) : List Char :=
  ((l.dropWhile pySpace).reverse.dropWhile pySpace).reverse

/-- Python `str.strip()`. -/
def pyStrip (s : String) : String := String.mk (pyStripChars s.data)

/-- Python `str.lower()` (ASCII model). -/
def pyLower (s : String) : String := String.mk (s.data.map Char.toLower)

/-- Python `str.upper()` (ASCII model). -/
def pyUpper (s : String) : String := String.mk (s.data.map Char.toUpper)

/-- Helper for `re.sub(r"\s+", " ", x)`: collapse each maximal whitespace
run to a single space.  The flag records whether the previous character
was part of a whitespace run. -/
def collapseWsAux : List Char → Bool → List Char
  | [], _ => []
  | c :: cs, prevSpace =>
    if pySpace c then
      if prevSpace then collapseWsAux cs true else ' ' :: collapseWsAux cs true
    else c :: collapseWsAux cs false

/-- `_clean_text` on a string argument:
`re.sub(r"\s+", " ", str(x)).strip()`. -/
def clean_text (s : String) : String :=
  String.mk (pyStripChars (collapseWsAux s.data false))

/-- `_clean_text` on an optional argument: `... if x else ""` (both `None`
and the empty string give `""`; `clean_text "" = ""` makes the collapse
of the two falsy cases harmless). -/
def clean_text_opt : Option String → String
  | none => ""
  | some s => clean_text s

/-- `needle` is a prefix of `hay` (on character lists). -/
def listStartsWith : List Char → List Char → Bool
  | [], _ => true
  | _ :: _, [] => false
  | n :: ns, h :: hs => n == h && listStartsWith ns hs

/-- Python `needle in hay` substring test on character lists. -/
def listHasSubstr : List Char → List Char → Bool
  | hay, nee =>
    match hay with
    | [] => nee.isEmpty
    | _ :: t => listStartsWith nee hay || listHasSubstr t nee

/-- Python `needle in hay` substring test on strings. -/
def strHasSubstr (hay nee : String) : Bool := listHasSubstr hay.data nee.data

/-- Python `a or b` for strings (empty string is falsy). -/
def strOr (a b : String) : String := if a = "" then b else a

/-- Python `x or d` where `x` is an optional string and the result is a
string (`None` and `""` are falsy). -/
def optOr (x : Option String) (d : String) : String :=
  match x with
  | some s => if s = "" then d else s
  | none => d

/-- Python `a or b` for two optional strings. -/
def pyOrOpt (a b : Option String) : Option String :=
  match a with
  | some s => if s = "" then b else a
  | none => b

/-- Python truthiness of an optional string (`None` and `""` falsy). -/
def optTruthy : Option String → Bool
  | some s => s ≠ ""
  | none => false

/-- The `CURRENCY_MAP` table of the source. -/
def CURRENCY_MAP : List (String × String) :=
  [("$", "USD"), ("US$", "USD"), ("USD", "USD"),
   ("A$", "AUD"), ("AU$", "AUD"), ("AUD", "AUD"),
   ("£", "GBP"), ("GBP", "GBP"),
   ("€", "EUR"), ("EUR", "EUR"),
   ("INR", "INR"), ("₹", "INR")]

/-- `dict.get` on an association-list model of a Python dict (keys are
unique in the source tables, so first match suffices). -/
def mapLookup (m : List (String × String)) (k : String) : Option String :=
  (m.find? (fun p => p.1 == k)).map (·.2)

/-- Python `str.title()` (ASCII model): the first cased character of each
run of cased characters is uppercased, the rest lowercased. -/
def pyTitleAux : List Char → Bool → List Char
  | [], _ => []
  | c :: cs, prevCased =>
    if c.isAlpha then
      (if prevCased then c.toLower else c.toUpper) :: pyTitleAux cs true
    else c :: pyTitleAux cs false

/-- Python `str.title()`. -/
def pyTitle (s : String) : String := String.mk (pyTitleAux s.data false)

/-- The body of `_norm_currency` after the falsy gate:
`cur = cur.strip().upper(); CURRENCY_MAP.get(cur, CURRENCY_MAP.get(cur.title(), cur))`.
Unmapped tokens fall through unmodified (upper-cased, trimmed). -/
def norm_currency_str (cur : String) : String :=
  let c := pyUpper (pyStrip cur)
  match mapLookup CURRENCY_MAP c with
  | some v => v
  | none =>
    match mapLookup CURRENCY_MAP (pyTitle c) with
    | some v => v
    | none => c

/-- `_norm_currency`: `None`/empty input gives `None`, otherwise the mapped
or passed-through token. -/
def norm_currency : Option String → Option String
  | none => none
  | some s => if s = "" then none else some (norm_currency_str s)

/-!
  ## The price pattern matcher (`PRICE_RE` and `_extract_prices`)

`PRICE_RE` is embedded as a backtracking matcher producing, at a given
position, the list of all parses in the priority order of the regex engine
(alternatives tried left to right, quantifiers greedy, later components
backtrack first).  The head of that list is the match Python's engine
returns; `finditer` repeatedly takes the leftmost match and resumes after
it (every match of this pattern consumes at least one character, the
required amount digit).
-/

/-- The currency alternatives of the `curr`, `curr_range` and `curr_solo`
groups, in the order they appear in the pattern. -/
def CURR_TOKENS : List String :=
  ["USD", "AUD", "EUR", "GBP", "INR", "US$", "AU$", "A$", "$", "£", "€", "₹"]

/-- The currency-code alternatives of the `curr2` and `curr2_solo` groups. -/
def CODE_TOKENS : List String := ["USD", "AUD", "EUR", "GBP", "INR"]

/-- The range-separator alternatives `(?:to|–|-|—|and)`. -/
def SEP_TOKENS : List String := ["to", "–", "-", "—", "and"]

/-- Case-insensitive prefix test (the pattern carries the `(?i)` flag). -/
def ciStartsWith : List Char → List Char → Bool
  | [], _ => true
  | _ :: _, [] => false
  | t :: ts, c :: cs => (t.toLower == c.toLower) && ciStartsWith ts cs

/-- Try to consume one literal token case-insensitively, returning the
original consumed text and the rest. -/
def takeTok (tok : String) (s : List Char) : Option (String × List Char) :=
  if ciStartsWith tok.data s then
    some (String.mk (s.take tok.length), s.drop tok.length)
  else none

/-- An optional group of literal alternatives: every matching alternative
in pattern order, then the empty (skip) parse. -/
def optAlts (toks : List String) (s : List Char) :
    List (Option String × List Char) :=
  (toks.filterMap (fun t => takeTok t s)).map (fun p => (some p.1, p.2))
    ++ [(none, s)]

/-- A required group of literal alternatives. -/
def reqAlts (toks : List String) (s : List Char) : List (String × List Char) :=
  toks.filterMap (fun t => takeTok t s)

/-- `\s*`: the possible rests after consuming whitespace, greedy first. -/
def wsAlts : List Char → List (List Char)
  | [] => [[]]
  | c :: cs => if pySpace c then wsAlts cs ++ [c :: cs] else [c :: cs]

/-- The lengths `m, m-1, …, lo` (empty when `m < lo`). -/
def descLens (m lo : Nat) : List Nat :=
  ((List.range (m + 1)).reverse).filter (fun k => lo ≤ k)

/-- `\d{lo,hi}` (greedy): consumed digits and rest, longest first. -/
def digitsAlt (lo hi : Nat) (s : List Char) : List (List Char × List Char) :=
  (descLens (min hi ((s.takeWhile Char.isDigit).length)) lo).map
    (fun k => (s.take k, s.drop k))

/-- One `,\d{3}` group. -/
def commaGrpOne (s : List Char) : Option (List Char × List Char) :=
  match s with
  | ',' :: a :: b :: c :: rest =>
    if a.isDigit && b.isDigit && c.isDigit then
      some ([',', a, b, c], rest)
    else none
  | _ => none

/-- `(?:,\d{3})*` (greedy star, fuelled): parses with more repetitions
first. -/
def starComma : Nat → List Char → List (List Char × List Char)
  | 0, s => [([], s)]
  | fuel + 1, s =>
    (match commaGrpOne s with
     | some (p, r) => (starComma fuel r).map (fun q => (p ++ q.1, q.2))
     | none => []) ++ [([], s)]

/-- The integer part `(?:\d{1,3}(?:,\d{3})*|\d+)`: first alternative (with
its internal backtracking) before the second, as the engine tries them. -/
def intAlts (s : List Char) : List (List Char × List Char) :=
  ((digitsAlt 1 3 s).flatMap
     (fun p => (starComma p.2.length p.2).map (fun q => (p.1 ++ q.1, q.2))))
    ++ digitsAlt 1 s.length s

/-- The optional decimal part `(?:\.\d{1,2})?`. -/
def decAlts (s : List Char) : List (List Char × List Char) :=
  (match s with
   | '.' :: r => (digitsAlt 1 2 r).map (fun p => ('.' :: p.1, p.2))
   | _ => []) ++ [([], s)]

/-- A full amount token: integer part plus optional decimals. -/
def amtAlts (s : List Char) : List (String × List Char) :=
  (intAlts s).flatMap
    (fun p => (decAlts p.2).map (fun q => (String.mk (p.1 ++ q.1), q.2)))

/-- The named groups of one `PRICE_RE` match (unset = did not participate). -/
structure PMatch where
  curr : Option String := none
  amt1 : Option String := none
  curr_range : Option String := none
  amt2 : Option String := none
  curr2 : Option String := none
  curr_solo : Option String := none
  amt_solo : Option String := none
  curr2_solo : Option String := none
deriving DecidableEq, Repr

/-- `amt2?`: the optional second amount, matching parses first, then the
skip parse. -/
def optAmt (s : List Char) : List (Option String × List Char) :=
  (amtAlts s).map (fun p => (some p.1, p.2)) ++ [(none, s)]

/-- First alternative of `PRICE_RE`: `curr? \s* amt1 \s* sep \s*
(curr_range? \s*) amt2? curr2?` (no whitespace allowed between `amt2` and
`curr2`). -/
def branch1 (s : List Char) : List (PMatch × List Char) :=
  (optAlts CURR_TOKENS s).flatMap fun cp =>
  (wsAlts cp.2).flatMap fun r2 =>
  (amtAlts r2).flatMap fun ap =>
  (wsAlts ap.2).flatMap fun r4 =>
  (reqAlts SEP_TOKENS r4).flatMap fun sp =>
  (wsAlts sp.2).flatMap fun r6 =>
  (optAlts CURR_TOKENS r6).flatMap fun crp =>
  (wsAlts crp.2).flatMap fun r8 =>
  (optAmt r8).flatMap fun a2p =>
  (optAlts CODE_TOKENS a2p.2).map fun c2p =>
  ({ curr := cp.1, amt1 := some ap.1, curr_range := crp.1,
     amt2 := a2p.1, curr2 := c2p.1 }, c2p.2)

/-- Second alternative of `PRICE_RE`: `curr_solo? \s* amt_solo \s*
curr2_solo?`. -/
def branch2 (s : List Char) : List (PMatch × List Char) :=
  (optAlts CURR_TOKENS s).flatMap fun cp =>
  (wsAlts cp.2).flatMap fun r2 =>
  (amtAlts r2).flatMap fun ap =>
  (wsAlts ap.2).flatMap fun r4 =>
  (optAlts CODE_TOKENS r4).map fun c2p =>
  ({ curr_solo := cp.1, amt_solo := some ap.1, curr2_solo := c2p.1 }, c2p.2)

/-- `PRICE_RE.finditer`: scan left to right, take the engine's match at the
first position where one exists, resume after it.  Fuelled by the input
length (each step either consumes a nonempty match or one character). -/
def findMatches : Nat → List Char → List PMatch
  | 0, _ => []
  | fuel + 1, s =>
    match (branch1 s ++ branch2 s).head? with
    | some (m, rest) => m :: findMatches fuel rest
    | none =>
      match s with
      | [] => []
      | _ :: t => findMatches fuel t

/-- All `PRICE_RE` matches of a text, in order. -/
def price_re_finditer (t : String) : List PMatch :=
  findMatches (t.data.length + 1) t.data

/-- `_first` specialised to optional strings (skips `None` and `""`). -/
def firstGroup : List (Option String) → Option String
  | [] => none
  | x :: xs =>
    match x with
    | some s => if s = "" then firstGroup xs else some s
    | none => firstGroup xs

/-- Is every character a digit (nonempty)? -/
def allDigits (l : List Char) : Bool :=
  !l.isEmpty && l.all Char.isDigit

/-- Digits to a natural number. -/
def digitsVal (l : List Char) : Nat :=
  l.foldl (fun acc c => acc * 10 + (c.toNat - 48)) 0

/-- Python `float()` on a decimal literal (optional sign, digits, optional
fraction); scientific notation and the named special values never occur in
the modelled inputs.  `float` strips surrounding whitespace itself. -/
def parseFloat (s : String) : Option ℚ :=
  let l := pyStripChars s.data
  let p : Bool × List Char :=
    match l with
    | '-' :: r => (true, r)
    | '+' :: r => (false, r)
    | _ => (false, l)
  match p.2.splitOn '.' with
  | [i] =>
    if allDigits i then
      some (mkRat (if p.1 then -(Int.ofNat (digitsVal i)) else Int.ofNat (digitsVal i)) 1)
    else none
  | [i, f] =>
    if allDigits i && f.all Char.isDigit then
      let mag : Nat := digitsVal i * 10 ^ f.length + digitsVal f
      some (mkRat (if p.1 then -(Int.ofNat mag) else Int.ofNat mag) (10 ^ f.length))
    else none
  | _ => none

/-- Python `str.replace(",", "")`. -/
def stripCommas (s : String) : String :=
  String.mk (s.data.filter (fun c => c ≠ ','))

/-- `_extract_prices`: for each match, the amount is `amt1 or amt_solo` and
the currency the first non-empty group among
`curr, curr_range, curr2, curr_solo, curr2_solo`, normalised; malformed
amounts are skipped (`try/except`). -/
def extract_prices (text : String) : List (ℚ × Option String) :=
  (price_re_finditer text).filterMap fun m =>
    match pyOrOpt m.amt1 m.amt_solo with
    | none => none
    | some a =>
      if a = "" then none
      else
        match parseFloat (stripCommas a) with
        | some v =>
          some (v, norm_currency
            (firstGroup [m.curr, m.curr_range, m.curr2, m.curr_solo, m.curr2_solo]))
        | none => none

/-!
  ## Dates (`_to_iso`), with `dateparser` and the wall clock as context
-/

/-- A Python `datetime` as far as the pipeline observes it: calendar date
plus seconds of day. -/
structure PyDT where
  year : Int
  month : Nat
  day : Nat
  secOfDay : Nat := 0
deriving DecidableEq, Repr

/-- The runtime context of `_to_iso`: the external `dateparser.parse`
function (with the settings of the source baked in) and `datetime.now()`. -/
structure DateCtx where
  parse : String → Option PyDT
  now : PyDT

/-- `dt.date() < other.date()`: lexicographic date comparison. -/
def date_lt (a b : PyDT) : Bool :=
  a.year < b.year || (a.year == b.year &&
    (a.month < b.month || (a.month == b.month && a.day < b.day)))

/-- Day number of a civil date (days since 1970-01-01, standard
`days_from_civil` algorithm). -/
def civil_days (y : Int) (m d : Nat) : Int :=
  let y' : Int := if m ≤ 2 then y - 1 else y
  let era : Int := Int.fdiv y' 400
  let yoe : Int := y' - era * 400
  let mp : Nat := if 2 < m then m - 3 else m + 9
  let doy : Int := ((153 * (mp : Int) + 2) / 5) + (d : Int) - 1
  let doe : Int := yoe * 365 + yoe / 4 - yoe / 100 + doy
  era * 146097 + doe - 719468

/-- Absolute seconds of a datetime. -/
def dt_abs_sec (t : PyDT) : Int :=
  civil_days t.year t.month t.day * 86400 + (t.secOfDay : Int)

/-- `(a - b).days`: Python `timedelta.days` floors toward minus infinity. -/
def days_between (a b : PyDT) : Int :=
  Int.fdiv (dt_abs_sec a - dt_abs_sec b) 86400

/-- Zero-pad a number to two digits (`strftime` `%m`/`%d`). -/
def pad2 (n : Nat) : String :=
  if n < 10 then "0" ++ Nat.repr n else Nat.repr n

/-- `dt.strftime("%Y-%m-%d")` (years of four or more digits). -/
def fmt_iso (t : PyDT) : String :=
  toString t.year ++ "-" ++ pad2 t.month ++ "-" ++ pad2 t.day

/-- `_to_iso`: parse the string; if the result lies in the past relative to
`now`, speculatively re-parse with next year appended and keep that result
when it lands within 400 days of `now`. -/
def to_iso (ctx : DateCtx) (d : Option String) : Option String :=
  match d with
  | none => none
  | some s =>
    if s = "" then none
    else
      match ctx.parse s with
      | none => none
      | some dt =>
        let dt' :=
          if date_lt dt ctx.now then
            match ctx.parse (s ++ " " ++ toString (ctx.now.year + 1)) with
            | some alt => if days_between alt ctx.now < 400 then alt else dt
            | none => dt
          else dt
        some (fmt_iso dt')

/-!
  ## JSON values (the result of `json.loads`) and the JSON-LD extractor
-/

/-- A parsed JSON value.  Numbers are rationals (ints and decimal floats). -/
inductive Json where
  | null
  | bool (b : Bool)
  | num (q : ℚ)
  | str (s : String)
  | arr (xs : List Json)
  | obj (kvs : List (String × Json))

/-- Raw association lookup on a JSON object (`json.loads` keeps the last
binding of a duplicated key). -/
def assocGet (kvs : List (String × Json)) (k : String) : Option Json :=
  (kvs.reverse.find? (fun p => p.1 == k)).map (·.2)

/-- `dict.get(k)` at the Python level: a JSON `null` value is Python `None`,
indistinguishable from an absent key. -/
def pyGet (kvs : List (String × Json)) (k : String) : Option Json :=
  match assocGet kvs k with
  | some .null => none
  | some v => some v
  | none => none

/-- Python truthiness of a loaded JSON value. -/
def jsonTruthy : Json → Bool
  | .null => false
  | .bool b => b
  | .num q => decide (q ≠ 0)
  | .str s => s ≠ ""
  | .arr xs => !xs.isEmpty
  | .obj kvs => !kvs.isEmpty

/-- Python `a or b` over optional JSON values. -/
def jsonOr (a b : Option Json) : Option Json :=
  match a with
  | some v => if jsonTruthy v then some v else b
  | none => b

/-- A single quote character (for Python `repr` of strings). -/
def pyQuote : String := String.mk ['\x27']

/-- Python `repr` of a rational JSON number: integers print without a
fractional part; the (unused in any modelled input) non-integer case is
approximated by the fraction. -/
def ratPyRepr (q : ℚ) : String :=
  if q.den = 1 then toString q.num
  else toString q.num ++ "/" ++ toString q.den

mutual

/-- Python `repr` of a loaded JSON value (used by `str()` on containers). -/
def jsonRepr : Json → String
  | .null => "None"
  | .bool b => if b then "True" else "False"
  | .num q => ratPyRepr q
  | .str s => pyQuote ++ s ++ pyQuote
  | .arr xs => "[" ++ jsonReprList xs ++ "]"
  | .obj kvs => "\x7b" ++ jsonReprObj kvs ++ "\x7d"

/-- `repr` of the elements of a JSON array, comma separated. -/
def jsonReprList : List Json → String
  | [] => ""
  | [x] => jsonRepr x
  | x :: xs => jsonRepr x ++ ", " ++ jsonReprList xs

/-- `repr` of the bindings of a JSON object, comma separated. -/
def jsonReprObj : List (String × Json) → String
  | [] => ""
  | [kv] => pyQuote ++ kv.1 ++ pyQuote ++ ": " ++ jsonRepr kv.2
  | kv :: kvs => pyQuote ++ kv.1 ++ pyQuote ++ ": " ++ jsonRepr kv.2 ++ ", " ++ jsonReprObj kvs

end

/-- Python `str()` of a loaded JSON value (strings print bare, containers
via `repr`). -/
def jsonPyStr : Json → String
  | .str s => s
  | v => jsonRepr v

/-- Is a JSON value equal (Python `==`) to one of `None`, `""`, `[]`, `{}`
(the falsy literals `_first` skips)? -/
def jsonFalsyLiteral : Json → Bool
  | .null => true
  | .str "" => true
  | .arr [] => true
  | .obj [] => true
  | _ => false

/-- `_first` over the items of a JSON list. -/
def jsonFirst (l : List Json) : Option Json :=
  l.find? (fun v => !jsonFalsyLiteral v)

/-- `_coerce_str` on a (possibly absent) JSON value: `None` stays `None`,
lists take the first non-falsy item, everything else is `str()`-converted
and cleaned. -/
def coerce_str : Option Json → Option String
  | none => none
  | some v =>
    match v with
    | .arr xs =>
      some (clean_text (match jsonFirst xs with
        | some w => jsonPyStr w
        | none => ""))
    | w => some (clean_text (jsonPyStr w))

/-- `_coerce_str` on an optional string argument. -/
def coerce_str_s : Option String → Option String
  | none => none
  | some s => some (clean_text s)

/-- `_entity_name`: a dict yields its cleaned `name`/`addressLocality`,
anything else is coerced directly. -/
def entity_name : Option Json → Option String
  | some (.obj kvs) => coerce_str (jsonOr (pyGet kvs "name") (pyGet kvs "addressLocality"))
  | x => coerce_str x

/-- `_country_from_addr`. -/
def country_from_addr : Option Json → Option String
  | some (.obj kvs) => coerce_str (pyGet kvs "addressCountry")
  | _ => none

/-- `_city_from_addr`. -/
def city_from_addr : Option Json → Option String
  | some (.obj kvs) => coerce_str (jsonOr (pyGet kvs "addressLocality") (pyGet kvs "addressRegion"))
  | _ => none

/-- `float(str(p))` on a JSON value inside the offers loop (`none` = the
conversion raised and the offer is skipped). -/
def jsonToFloat : Json → Option ℚ
  | .num q => some q
  | .str s => parseFloat s
  | _ => none

/-- `_norm_currency` applied to a raw JSON value inside the offers
`try` block.  The outer `none` means Python raised (`.strip()` on a
non-string); the inner option is the function's result. -/
def norm_currency_json : Option Json → Option (Option String)
  | none => some none
  | some v =>
    if jsonTruthy v then
      match v with
      | .str s => some (norm_currency (some s))
      | _ => none
    else some none

/-- One iteration of the `_from_offers` loop on one offer item: `none`
means the item is skipped (missing price, or an exception caught by the
surrounding `try`). -/
def offer_step (it : Json) : Option (ℚ × Option String) :=
  match it with
  | .obj kvs =>
    match norm_currency_json (pyGet kvs "priceCurrency") with
    | none => none
    | some c =>
      match pyGet kvs "price" with
      | none => none
      | some pv =>
        match jsonToFloat pv with
        | none => none
        | some q => some (q, c)
  | _ => none

/-- `_from_offers`: fold over the offer items keeping the lowest price and
its currency. -/
def from_offers (offers : Option Json) : Option ℚ × Option String :=
  match offers with
  | none => (none, none)
  | some ov =>
    if jsonTruthy ov then
      (match ov with
       | .arr xs => xs
       | v => [v]).foldl
        (fun acc it =>
          match offer_step it with
          | none => acc
          | some pc =>
            match acc.1 with
            | none => (some pc.1, pc.2)
            | some best => if pc.1 < best then (some pc.1, pc.2) else acc)
        (none, none)
    else (none, none)

/-!
  ## Rows, URL helpers, the four extractors and the orchestrator
-/

/-- One candidate program record (the dict shape every extractor builds). -/
structure Row where
  title : Option String := none
  description : Option String := none
  url : String := ""
  price : Option ℚ := none
  currency : Option String := none
  start_date : Option String := none
  end_date : Option String := none
  mode : Option String := none
  venue : Option String := none
  city : Option String := none
  country : Option String := none
  type : Option String := none
deriving DecidableEq, Repr

/-- `mapM` over `Option`, written as the Python loop it models: stop (the
exception propagates) at the first failing element. -/
def mapMopt (f : α → Option β) : List α → Option (List β)
  | [] => some []
  | a :: as_ =>
    match f a with
    | none => none
    | some b =>
      match mapMopt f as_ with
      | none => none
      | some bs => some (b :: bs)

/-- The scheme prefix of a URL, if any (`urllib.parse`: letters, digits,
`+`, `-`, `.` before a colon, first character a letter). -/
def urlSchemeSplit (u : String) : Option (String × String) :=
  let pre := u.data.takeWhile (fun c =>
    c.isAlpha || c.isDigit || c == '+' || c == '-' || c == '.')
  match u.data.drop pre.length with
  | ':' :: rest =>
    match pre with
    | c :: _ => if c.isAlpha then some (String.mk pre, String.mk rest) else none
    | [] => none
  | _ => none

/-- `urlparse(u).netloc`: present only after a `//`, runs to the next
`/`, `?` or `#`. -/
def urlNetloc (u : String) : String :=
  let rest := match urlSchemeSplit u with
    | some p => p.2
    | none => u
  if listStartsWith "//".data rest.data then
    String.mk ((rest.data.drop 2).takeWhile
      (fun c => c ≠ '/' && c ≠ '?' && c ≠ '#'))
  else ""

/-- `urlparse(u).fragment`: everything after the first `#`. -/
def urlFragment (u : String) : String :=
  match u.data.dropWhile (fun c => c ≠ '#') with
  | _ :: t => String.mk t
  | [] => ""

/-- Modelled from `urllib.parse.urljoin`, simplified to the reference
shapes the pipeline meets: empty references keep the base; references with
a scheme stand alone; network-path and absolute-path references take the
base scheme (and authority); other relative references replace the last
path segment of the base. -/
def urljoin (base rel : String) : String :=
  if rel = "" then base
  else if (urlSchemeSplit rel).isSome then rel
  else
    let scheme := match urlSchemeSplit base with
      | some p => p.1
      | none => ""
    if listStartsWith "//".data rel.data then scheme ++ ":" ++ rel
    else
      let netloc := urlNetloc base
      if listStartsWith "/".data rel.data then scheme ++ "://" ++ netloc ++ rel
      else
        let rest := match urlSchemeSplit base with
          | some p => p.2
          | none => base
        let path := String.mk ((rest.data.drop
          (if listStartsWith "//".data rest.data then 2 + netloc.length else 0)).takeWhile
            (fun c => c ≠ '?' && c ≠ '#'))
        let dir := String.mk ((path.data.reverse.dropWhile (fun c => c ≠ '/')).reverse)
        scheme ++ "://" ++ netloc ++ dir ++ rel

/-- The `EDU_WORDS` keyword set. -/
def EDU_WORDS : List String :=
  ["course", "class", "workshop", "training", "tutorial", "webinar",
   "lecture", "program", "degree", "diploma", "certificate", "bootcamp",
   "seminar", "learn", "education", "study", "mooc", "lesson",
   "curriculum", "module"]

/-- `_looks_educational`. -/
def looks_educational (text : String) : Bool :=
  let t := pyLower text
  EDU_WORDS.any (fun w => strHasSubstr t w)

/-- `_classify_type`. -/
def classify_type (text : String) : String :=
  let t := pyLower text
  if ["youtube.com", "vimeo.com", "lecture", "video"].any (fun k => strHasSubstr t k) then "Video"
  else if ["webinar", "seminar", "workshop", "conference"].any (fun k => strHasSubstr t k) then "Seminar"
  else if ["course", "bootcamp", "mooc", "degree", "diploma", "certificate"].any (fun k => strHasSubstr t k) then "Course"
  else "Other"

/-- `_iter_jsonld` on the loaded script blocks (`none` = `json.loads`
raised, the block is skipped).  Every yielded object is a dict. -/
def iter_jsonld (scripts : List (Option Json)) : List (List (String × Json)) :=
  scripts.foldr
    (fun blk acc =>
      (match blk with
       | none => []
       | some data =>
         match data with
         | .arr items => items.filterMap (fun v => match v with
             | Json.obj kvs => some kvs
             | _ => none)
         | .obj kvs =>
           match assocGet kvs "@graph" with
           | some (.arr items) => items.filterMap (fun v => match v with
               | Json.obj k => some k
               | _ => none)
           | _ => [kvs]
         | _ => []) ++ acc)
    []

/-- The `typ` computation of `_rows_from_jsonld`: `obj.get("@type","")`,
joined with commas when a list (raising — `none` — on non-string members),
`str()`-converted and lowercased otherwise. -/
def typ_of (kvs : List (String × Json)) : Option String :=
  let typ_raw := match assocGet kvs "@type" with
    | some v => v
    | none => Json.str ""
  match typ_raw with
  | .arr xs =>
    (mapMopt (fun v => match v with
      | Json.str s => some s
      | _ => none) xs).map (fun ss => pyLower (String.intercalate "," ss))
  | v => some (pyLower (jsonPyStr v))

/-- `obj.get("@type") == ["LearningResource","Course"]`. -/
def typeEqLRCourse (kvs : List (String × Json)) : Bool :=
  match assocGet kvs "@type" with
  | some (.arr [.str a, .str b]) => a == "LearningResource" && b == "Course"
  | _ => false

/-- The `add_row` closure of `_rows_from_jsonld`: build the row and append
it only when it has a truthy title or description. -/
def add_row (ctx : DateCtx) (base_url : String)
    (name desc start end_ mode : Option String)
    (venue city country : Option String)
    (price : Option ℚ) (currency : Option String)
    (url : String) (rtype : Option String) : List Row :=
  let u := strOr url base_url
  let row : Row :=
    { title := match name with
        | some n => if n = "" then none else some (clean_text n)
        | none => none
      description := match desc with
        | some d_ => if d_ = "" then none else some (clean_text d_)
        | none => none
      url := u
      price := price
      currency := currency
      start_date := to_iso ctx start
      end_date := to_iso ctx end_
      mode := match mode with
        | some m =>
          let c := clean_text m
          if c = "" then none else some c
        | none => none
      venue := match venue with
        | some v => if v = "" then none else some (clean_text v)
        | none => none
      city := match city with
        | some v => if v = "" then none else some (clean_text v)
        | none => none
      country := match country with
        | some v => if v = "" then none else some (clean_text v)
        | none => none
      type := match rtype with
        | some t => if t = "" then none else some t
        | none => none }
  if optTruthy row.title || optTruthy row.description then [row] else []

/-- `_rows_from_jsonld` on one yielded dict (`none` = an uncaught
exception: a `@type` list with a non-string member). -/
def rows_from_jsonld (ctx : DateCtx) (kvs : List (String × Json))
    (base_url : String) : Option (List Row) :=
  match typ_of kvs with
  | none => none
  | some typ =>
    if ["jobposting", "person", "organization", "faqpage", "article"].any
        (fun k => strHasSubstr typ k) then some []
    else if strHasSubstr typ "course" || typeEqLRCourse kvs then
      let name := coerce_str (pyGet kvs "name")
      let desc := coerce_str (pyGet kvs "description")
      let url := optOr (coerce_str (jsonOr (pyGet kvs "url") (pyGet kvs "mainEntityOfPage"))) base_url
      let start := coerce_str (pyGet kvs "startDate")
      let end_ := coerce_str (pyGet kvs "endDate")
      let mode := coerce_str (pyGet kvs "courseMode")
      let org := jsonOr (pyGet kvs "provider") (pyGet kvs "organizer")
      let venue := entity_name org
      let pc := from_offers (pyGet kvs "offers")
      some (add_row ctx base_url name desc start end_ mode venue none none pc.1 pc.2 url (some "Course"))
    else if strHasSubstr typ "event" then
      let name := coerce_str (pyGet kvs "name")
      let desc := coerce_str (pyGet kvs "description")
      let url := optOr (coerce_str (pyGet kvs "url")) base_url
      let start := coerce_str (pyGet kvs "startDate")
      let end_ := coerce_str (pyGet kvs "endDate")
      let mode := coerce_str (pyGet kvs "eventAttendanceMode")
      let loc : Json := match pyGet kvs "location" with
        | some v => if jsonTruthy v then v else Json.obj []
        | none => Json.obj []
      let venue := entity_name (some loc)
      let addr := match loc with
        | .obj lk => pyGet lk "address"
        | _ => none
      let city := city_from_addr addr
      let country := country_from_addr addr
      let pc := from_offers (pyGet kvs "offers")
      some (add_row ctx base_url name desc start end_ mode venue city country pc.1 pc.2 url (some "Seminar"))
    else if strHasSubstr typ "creativework" || strHasSubstr typ "learningresource" then
      let name := coerce_str (pyGet kvs "name")
      let desc := coerce_str (pyGet kvs "description")
      let url := optOr (coerce_str (pyGet kvs "url")) base_url
      some (add_row ctx base_url name desc none none none none none none none none url none)
    else some []

/-- One microdata item (`[itemscope][itemtype]` element) as the fields the
extractor reads from it: tag texts, the `href` of the url tag, and for the
date tags the `content` attribute plus the text. -/
structure MicroItem where
  itemtype : String := ""
  nameTag : Option String := none
  descTag : Option String := none
  urlTag : Option (Option String) := none
  startTag : Option (Option String × String) := none
  endTag : Option (Option String × String) := none
  priceTag : Option String := none
  currTag : Option String := none
  venueTag : Option String := none
  cityTag : Option String := none
  countryTag : Option String := none

/-- `_rows_from_microdata` over the pre-queried items. -/
def rows_from_microdata (ctx : DateCtx) (items : List MicroItem)
    (base_url : String) : List Row :=
  items.foldr
    (fun item acc =>
      let itype := pyLower item.itemtype
      if ["course", "event", "education"].any (fun k => strHasSubstr itype k) then
        let title := clean_text_opt item.nameTag
        let desc := clean_text_opt item.descTag
        let url2a := clean_text (match item.urlTag with
          | some href => match href with
            | some h => h
            | none => ""
          | none => base_url)
        let url2b := strOr url2a base_url
        let url2 := if url2b ≠ "" && urlNetloc url2b = "" then urljoin base_url url2b else url2b
        let price : Option ℚ := match item.priceTag with
          | some ptxt => if ptxt ≠ "" then parseFloat ptxt else none
          | none => none
        let row : Row :=
          { title := if title = "" then none else some title
            description := if desc = "" then none else some desc
            url := url2
            price := price
            currency := norm_currency item.currTag
            start_date := pyOrOpt (to_iso ctx (item.startTag.bind (·.1)))
              (to_iso ctx (item.startTag.map (·.2)))
            end_date := pyOrOpt (to_iso ctx (item.endTag.bind (·.1)))
              (to_iso ctx (item.endTag.map (·.2)))
            mode := none
            venue := (fun v => if v = "" then none else some v) (clean_text_opt item.venueTag)
            city := (fun v => if v = "" then none else some v) (clean_text_opt item.cityTag)
            country := (fun v => if v = "" then none else some v) (clean_text_opt item.countryTag)
            type := some (classify_type itype) }
        row :: acc
      else acc)
    []

/-- One candidate list/card element as the features `_rows_from_lists`
queries from it: the text of the first multi-word heading/anchor, the
`href` of the first link, the text of the first long paragraph/div, and
the element's full text (`get_text(" ")`). -/
structure ListItem where
  titleTag : Option String := none
  linkHref : Option String := none
  descTag : Option String := none
  fullText : String := ""

/-- `_rows_from_lists` over the pre-queried candidate elements. -/
def rows_from_lists (items : List ListItem) (base_url : String) : List Row :=
  (items.take 60).foldr
    (fun item acc =>
      match item.titleTag, item.linkHref with
      | some ttext, some href =>
        let title := clean_text ttext
        let u := urljoin base_url href
        if urlNetloc u = "" || urlFragment u ≠ "" then acc
        else
          let desc := item.descTag.map clean_text
          let combined := title ++ " " ++ optOr desc ""
          if ¬ looks_educational combined then acc
          else
            let prices := extract_prices item.fullText
            let pc : Option ℚ × Option String := match prices.head? with
              | some p => (some p.1, p.2)
              | none => (none, none)
            let mode := if ["online", "virtual"].any
                (fun k => strHasSubstr (pyLower item.fullText) k) then some "Online" else none
            ({ title := some title, description := desc, url := u,
               price := pc.1, currency := pc.2,
               start_date := none, end_date := none, mode := mode,
               venue := none, city := none, country := none,
               type := some (classify_type combined) } : Row) :: acc
      | _, _ => acc)
    []

/-- The `\b(20\d{2}-\d{2}-\d{2})\b` match at the head of a character list
(the boundary before the match is checked by the caller). -/
def isoHere (s : List Char) : Option String :=
  match s with
  | c1 :: c2 :: c3 :: c4 :: h1 :: m1 :: m2 :: h2 :: d1 :: d2 :: rest =>
    if c1 == '2' && c2 == '0' && c3.isDigit && c4.isDigit && h1 == '-' &&
       m1.isDigit && m2.isDigit && h2 == '-' && d1.isDigit && d2.isDigit &&
       (match rest with
        | [] => true
        | r :: _ => !(r.isAlphanum || r == '_')) then
      some (String.mk [c1, c2, c3, c4, h1, m1, m2, h2, d1, d2])
    else none
  | _ => none

/-- `re.search` for the ISO-date pattern: first match position, scanning
left to right; the flag records whether the previous character was a word
character (for the leading `\b`). -/
def isoSearchAux : List Char → Bool → Option String
  | [], _ => none
  | c :: t, prevW =>
    match (if prevW then none else isoHere (c :: t)) with
    | some r => some r
    | none => isoSearchAux t (c.isAlphanum || c == '_')

/-- First ISO-shaped date token in a text. -/
def isoSearch (s : String) : Option String := isoSearchAux s.data false

/-- The page-level metadata a document carries, plus the pre-queried
extractor inputs: the JSON-LD blocks, microdata items and candidate list
elements, the social-preview/title tags and the page text. -/
structure Doc where
  scripts : List (Option Json) := []
  microItems : List MicroItem := []
  listItems : List ListItem := []
  ogTitle : Option String := none
  ogDesc : Option String := none
  twTitle : Option String := none
  twDesc : Option String := none
  titleText : Option String := none
  docText : String := ""

/-- `_rows_from_fallbacks`. -/
def rows_from_fallbacks (ctx : DateCtx) (doc : Doc) (base_url : String) : List Row :=
  let page_title : Option String := match doc.titleText with
    | some t => if t ≠ "" then some (clean_text t) else none
    | none => none
  let title := firstGroup [doc.ogTitle, doc.twTitle, page_title]
  let desc := firstGroup [doc.ogDesc, doc.twDesc]
  let text := clean_text doc.docText
  if ¬ looks_educational text then []
  else
    let pc : Option ℚ × Option String := match (extract_prices text).head? with
      | some p => (some p.1, p.2)
      | none => (none, none)
    let start_date := match isoSearch text with
      | some d_ => to_iso ctx (some d_)
      | none => none
    [{ title := some (optOr (pyOrOpt title page_title) "Program")
       description := match desc with
         | some d_ => if d_ = "" then none else some d_
         | none => none
       url := base_url
       price := pc.1
       currency := pc.2
       start_date := start_date
       end_date := none
       mode := if strHasSubstr (pyLower text) "online" then some "Online" else none
       venue := none, city := none, country := none
       type := some (classify_type text) }]

/-- The dedup key: `(str(title).strip().lower(), str(url).strip().lower())`
(`str(None)` is `"None"`; after normalization the title is always a
string). -/
def dedup_key (r : Row) : String × String :=
  (pyLower (pyStrip (match r.title with
     | some t => t
     | none => "None")),
   pyLower (pyStrip r.url))

/-- The `_dedupe` loop with its seen-set. -/
def dedupe_go (seen : List (String × String)) : List Row → List Row
  | [] => []
  | r :: rs =>
    let k := dedup_key r
    if k ∈ seen then dedupe_go seen rs
    else r :: dedupe_go (k :: seen) rs

/-- `_dedupe`. -/
def dedupe (rows : List Row) : List Row := dedupe_go [] rows

/-- `norm_mode`: lines 305–308 of the source.  The lowered raw mode is
tested against the two keyword families; otherwise the raw mode survives
when truthy and `"Unknown"` is substituted only for a falsy one. -/
def norm_mode (m : Option String) : Option String :=
  let ml := pyLower (optOr m "")
  if ["online", "virtual", "remote"].any (fun k => strHasSubstr ml k) then some "Online"
  else if ["inperson", "in-person", "campus", "onsite", "on-site", "classroom"].any
      (fun k => strHasSubstr ml k) then some "In-person"
  else
    match m with
    | some s => if s = "" then some "Unknown" else some s
    | none => some "Unknown"

/-- The normalization pass of `extract_programs` on one record (lines
300–310).  `none` models the uncaught `TypeError` of line 309:
`" ".join([title, description])` with a `None` description, reached when
the record's type is falsy. -/
def norm_row (pageUrl : String) (r : Row) : Option Row :=
  let title := let c := clean_text_opt r.title; if c = "" then "Program" else c
  let desc := let c := clean_text_opt r.description; if c = "" then none else some c
  let url' := if r.url = "" then pageUrl else r.url
  let currency : Option String := match r.currency with
    | none => none
    | some c => if c = "" then some c else norm_currency (some c)
  let mode := norm_mode r.mode
  let ty : Option (Option String) :=
    if optTruthy r.type then some r.type
    else
      match desc with
      | none => none
      | some d_ => some (some (classify_type (title ++ " " ++ d_)))
  match ty with
  | none => none
  | some t =>
    some { title := some title, description := desc, url := url',
           price := r.price, currency := currency,
           start_date := r.start_date, end_date := r.end_date,
           mode := mode, venue := r.venue, city := r.city,
           country := r.country, type := t }

/-- `extract_programs` after the empty-input gate: run the extractor
cascade on the parsed document, normalize, dedupe, truncate.  `none`
models an uncaught exception. -/
def extract_programs_core (ctx : DateCtx) (doc : Doc) (url : String) :
    Option (List Row) :=
  match mapMopt (fun kvs => rows_from_jsonld ctx kvs url) (iter_jsonld doc.scripts) with
  | none => none
  | some rls =>
    let rows1 := rls.flatten ++ rows_from_microdata ctx doc.microItems url
    let rows2 := if rows1.length < 5 then rows1 ++ rows_from_lists doc.listItems url else rows1
    let rows3 := if rows2.isEmpty then rows2 ++ rows_from_fallbacks ctx doc url else rows2
    match mapMopt (norm_row url) rows3 with
    | none => none
    | some nr =>
      let d := dedupe nr
      some (if d.length > 30 then d.take 30 else d)

/-- `extract_programs(html_raw, url)`: empty input returns `[]` before any
parsing; otherwise the document (produced by the total parser `soup`) runs
through the cascade. -/
def extract_programs (ctx : DateCtx) (html_raw : String)
    (soup : String → Doc) (url : String) : Option (List Row) :=
  if html_raw = "" then some []
  else extract_programs_core ctx (soup html_raw) url

/-- The currency step of the normalization pass (line 304 of the source):
re-normalise a truthy currency, leave a falsy one untouched. -/
def norm_currency_step (x : Option String) : Option String :=
  match x with
  | none => none
  | some c => if c = "" then some c else norm_currency (some c)

/-!
  ## Concrete documents and contexts used in the claim theorems
-/

/-- A date context whose parser always fails; none of the concrete
documents below contain date strings. -/
def null_ctx : DateCtx := ⟨fun _ => none, ⟨2026, 1, 1, 0⟩⟩

/-- A concrete `dateparser` behaviour for the date-claim witnesses. -/
def demo_parse : String → Option PyDT := fun s =>
  if s = "March 3" then some ⟨2026, 3, 3, 0⟩
  else if s = "March 3 2027" then some ⟨2027, 3, 3, 0⟩
  else if s = "2024-01-15" then some ⟨2024, 1, 15, 0⟩
  else none

/-- A date context over `demo_parse` whose "now" is 2026-06-01. -/
def demo_ctx : DateCtx := ⟨demo_parse, ⟨2026, 6, 1, 0⟩⟩

/-- A page carrying one well-formed JSON-LD Course block. -/
def demo_doc : Doc :=
  { scripts := [some (Json.obj
      [("@type", Json.str "Course"), ("name", Json.str "Demo Course")])] }

/-- The single record the pipeline produces from `demo_doc`. -/
def demo_row : Row :=
  { title := some "Demo Course", url := "http://x",
    mode := some "Unknown", type := some "Course" }

/-- A page whose JSON-LD block is a well-formed CreativeWork carrying a
name but no description. -/
def c1doc : Doc :=
  { scripts := [some (Json.obj
      [("@type", Json.str "CreativeWork"), ("name", Json.str "Learn Stuff")])] }

/-- A page with fallback-level data only: an educational page text and a
title tag. -/
def c4doc : Doc :=
  { titleText := some "Free online course",
    docText := "Free online course for kids" }

/-- The record the fallback extractor produces from `c4doc` when the page
URL is empty. -/
def c4row : Row :=
  { title := some "Free online course", url := "",
    mode := some "Online", type := some "Course" }

/-- A JSON-LD Course whose offer carries the unmapped currency code CAD. -/
def c5doc : Doc :=
  { scripts := [some (Json.obj
      [("@type", Json.str "Course"), ("name", Json.str "Money Course"),
       ("offers", Json.obj
         [("price", Json.str "10"), ("priceCurrency", Json.str "CAD")])])] }

/-- The record the pipeline produces from `c5doc`. -/
def c5row : Row :=
  { title := some "Money Course", url := "http://x", price := some 10,
    currency := some "CAD", mode := some "Unknown", type := some "Course" }

/-- A JSON-LD Course whose `courseMode` matches no mode-keyword family. -/
def c6docH : Doc :=
  { scripts := [some (Json.obj
      [("@type", Json.str "Course"), ("name", Json.str "Intro Course"),
       ("courseMode", Json.str "Hybrid flexible")])] }

/-- The record the pipeline produces from `c6docH`. -/
def c6rowH : Row :=
  { title := some "Intro Course", url := "http://x",
    mode := some "Hybrid flexible", type := some "Course" }

/-- A JSON-LD Course whose `courseMode` is "Remote session". -/
def c6docR : Doc :=
  { scripts := [some (Json.obj
      [("@type", Json.str "Course"), ("name", Json.str "Remote Course"),
       ("courseMode", Json.str "Remote session")])] }

/-- The record the pipeline produces from `c6docR`. -/
def c6rowR : Row :=
  { title := some "Remote Course", url := "http://x",
    mode := some "Online", type := some "Course" }

/-- A JSON-LD Course whose `courseMode` is "On-campus only". -/
def c6docC : Doc :=
  { scripts := [some (Json.obj
      [("@type", Json.str "Course"), ("name", Json.str "Campus Course"),
       ("courseMode", Json.str "On-campus only")])] }

/-- The record the pipeline produces from `c6docC`. -/
def c6rowC : Row :=
  { title := some "Campus Course", url := "http://x",
    mode := some "In-person", type := some "Course" }

/-- A candidate list element whose text carries the bare numeric token of
"Grade 5" and no currency marker. -/
def c10item : ListItem :=
  { titleTag := some "Science Class Grade 5", linkHref := some "http://x/p",
    fullText := "Science Class Grade 5" }

/-- The record the list extractor produces from `c10item`. -/
def c10row : Row :=
  { title := some "Science Class Grade 5", url := "http://x/p",
    price := some 5, type := some "Other" }

/-- A fallback-only page whose text carries the bare numeric token of
"Grade 5". -/
def c10doc : Doc :=
  { titleText := some "Learning Grade 5", docText := "Learning Grade 5" }

/-- The record the fallback extractor produces from `c10doc`. -/
def c10frow : Row :=
  { title := some "Learning Grade 5", url := "http://b",
    price := some 5, type := some "Other" }

/-- Two rows sharing the dedup key (case and surrounding whitespace
differ). -/
def c3row1 : Row := { title := some "A", url := "u" }

/-- The second row with the same dedup key as `c3row1`. -/
def c3row2 : Row := { title := some "a", url := " U" }

/-!
  ## Helper lemmas
-/

theorem mapMopt_mem {α β : Type} (f : α → Option β) :
    ∀ (l : List α) (l' : List β), mapMopt f l = some l' →
    ∀ b ∈ l', ∃ a ∈ l, f a = some b := by
  intro l
  induction l with
  | nil =>
    intro l' h b hb
    simp only [mapMopt, Option.some.injEq] at h
    subst h
    simp at hb
  | cons a as ih =>
    intro l' h b hb
    simp only [mapMopt] at h
    cases hfa : f a with
    | none => rw [hfa] at h; exact absurd h (by simp)
    | some b0 =>
      rw [hfa] at h
      cases hrec : mapMopt f as with
      | none => rw [hrec] at h; exact absurd h (by simp)
      | some bs =>
        rw [hrec] at h
        simp only [Option.some.injEq] at h
        subst h
        rcases List.mem_cons.mp hb with h1 | h2
        · exact ⟨a, List.mem_cons_self a as, h1 ▸ hfa⟩
        · obtain ⟨a', ha', hfa'⟩ := ih bs hrec b h2
          exact ⟨a', List.mem_cons_of_mem _ ha', hfa'⟩

theorem dedupe_go_sublist :
    ∀ (rows : List Row) (seen : List (String × String)),
    List.Sublist (dedupe_go seen rows) rows := by
  intro rows
  induction rows with
  | nil => intro seen; simp [dedupe_go]
  | cons r rs ih =>
    intro seen
    simp only [dedupe_go]
    split
    · exact (ih seen).cons r
    · exact (ih _).cons₂ r

theorem mem_dedupe_go_not_seen :
    ∀ (rows : List Row) (seen : List (String × String)) (r : Row),
    r ∈ dedupe_go seen rows → dedup_key r ∉ seen := by
  intro rows
  induction rows with
  | nil => intro seen r h; simp [dedupe_go] at h
  | cons r0 rs ih =>
    intro seen r h
    simp only [dedupe_go] at h
    by_cases hk : dedup_key r0 ∈ seen
    · rw [if_pos hk] at h
      exact ih seen r h
    · rw [if_neg hk] at h
      rcases List.mem_cons.mp h with h1 | h2
      · subst h1; exact hk
      · intro hin
        exact ih _ r h2 (List.mem_cons_of_mem _ hin)

theorem dedupe_go_pairwise :
    ∀ (rows : List Row) (seen : List (String × String)),
    (dedupe_go seen rows).Pairwise (fun a b => dedup_key a ≠ dedup_key b) := by
  intro rows
  induction rows with
  | nil => intro seen; simp [dedupe_go]
  | cons r0 rs ih =>
    intro seen
    simp only [dedupe_go]
    split
    · exact ih seen
    · refine List.Pairwise.cons ?_ (ih _)
      intro b hb hkey
      have := mem_dedupe_go_not_seen rs _ b hb
      exact this (hkey ▸ List.mem_cons_self _ _)

theorem dedupe_go_countP_zero :
    ∀ (rows : List Row) (seen : List (String × String)) (k : String × String),
    k ∈ seen →
    (dedupe_go seen rows).countP (fun r => decide (dedup_key r = k)) = 0 := by
  intro rows
  induction rows with
  | nil => intro seen k _; simp [dedupe_go]
  | cons r0 rs ih =>
    intro seen k hk
    simp only [dedupe_go]
    split
    · exact ih seen k hk
    · rename_i hnot
      have hne : dedup_key r0 ≠ k := fun he => hnot (he ▸ hk)
      rw [List.countP_cons_of_neg _ _ (by simpa using hne)]
      exact ih _ k (List.mem_cons_of_mem _ hk)

theorem dedupe_go_find_mem :
    ∀ (rows : List Row) (seen : List (String × String)) (k : String × String) (r₀ : Row),
    k ∉ seen →
    rows.find? (fun r => decide (dedup_key r = k)) = some r₀ →
    r₀ ∈ dedupe_go seen rows := by
  intro rows
  induction rows with
  | nil => intro seen k r₀ _ h; simp [List.find?] at h
  | cons r rs ih =>
    intro seen k r₀ hk hfind
    by_cases hp : dedup_key r = k
    · rw [List.find?_cons_of_pos _ (by simpa using hp)] at hfind
      injection hfind with hfind
      subst hfind
      simp only [dedupe_go]
      rw [if_neg (hp ▸ hk)]
      exact List.mem_cons_self _ _
    · rw [List.find?_cons_of_neg _ (by simpa using hp)] at hfind
      simp only [dedupe_go]
      split
      · exact ih seen k r₀ hk hfind
      · refine List.mem_cons_of_mem _ (ih _ k r₀ ?_ hfind)
        intro hin
        rcases List.mem_cons.mp hin with h1 | h2
        · exact hp h1.symm
        · exact hk h2

theorem dedupe_go_countP_one :
    ∀ (rows : List Row) (seen : List (String × String)) (k : String × String) (r₀ : Row),
    k ∉ seen →
    rows.find? (fun r => decide (dedup_key r = k)) = some r₀ →
    (dedupe_go seen rows).countP (fun r => decide (dedup_key r = k)) = 1 := by
  intro rows
  induction rows with
  | nil => intro seen k r₀ _ h; simp [List.find?] at h
  | cons r rs ih =>
    intro seen k r₀ hk hfind
    by_cases hp : dedup_key r = k
    · simp only [dedupe_go]
      rw [if_neg (hp ▸ hk)]
      rw [List.countP_cons_of_pos _ _ (by simpa using hp)]
      have : (dedupe_go (dedup_key r :: seen) rs).countP
          (fun r' => decide (dedup_key r' = k)) = 0 :=
        dedupe_go_countP_zero rs _ k (hp ▸ List.mem_cons_self _ _)
      omega
    · rw [List.find?_cons_of_neg _ (by simpa using hp)] at hfind
      simp only [dedupe_go]
      split
      · exact ih seen k r₀ hk hfind
      · rw [List.countP_cons_of_neg _ _ (by simpa using hp)]
        refine ih _ k r₀ ?_ hfind
        intro hin
        rcases List.mem_cons.mp hin with h1 | h2
        · exact hp h1.symm
        · exact hk h2

theorem norm_row_fields (u : String) (r₀ r : Row) (h : norm_row u r₀ = some r) :
    r.title = some (if clean_text_opt r₀.title = "" then "Program" else clean_text_opt r₀.title) ∧
    r.url = (if r₀.url = "" then u else r₀.url) ∧
    r.currency = norm_currency_step r₀.currency ∧
    r.mode = norm_mode r₀.mode := by
  simp only [norm_row] at h
  split at h
  · exact absurd h (by simp)
  · simp only [Option.some.injEq] at h
    subst h
    refine ⟨rfl, rfl, rfl, rfl⟩

theorem norm_row_title (u : String) (r₀ r : Row) (h : norm_row u r₀ = some r) :
    ∃ t, r.title = some t ∧ t ≠ "" := by
  obtain ⟨ht, -, -, -⟩ := norm_row_fields u r₀ r h
  refine ⟨_, ht, ?_⟩
  split
  · decide
  · assumption

theorem norm_row_url (u : String) (r₀ r : Row) (h : norm_row u r₀ = some r)
    (hu : u ≠ "") : r.url ≠ "" := by
  obtain ⟨-, hurl, -, -⟩ := norm_row_fields u r₀ r h
  rw [hurl]
  split
  · exact hu
  · assumption

theorem norm_currency_str_blank : norm_currency_str " " = "" := by decide

theorem norm_row_currency (u : String) (r₀ r : Row) (h : norm_row u r₀ = some r) :
    r.currency = none ∨ ∃ s, r.currency = some (norm_currency_str s) := by
  obtain ⟨-, -, hc, -⟩ := norm_row_fields u r₀ r h
  cases hr : r₀.currency with
  | none =>
    rw [hr] at hc
    exact Or.inl hc
  | some c =>
    rw [hr] at hc
    simp only [norm_currency_step] at hc
    by_cases hce : c = ""
    · subst hce
      rw [if_pos rfl] at hc
      exact Or.inr ⟨" ", by rw [hc, norm_currency_str_blank]⟩
    · rw [if_neg hce] at hc
      refine Or.inr ⟨c, ?_⟩
      rw [hc]
      simp [norm_currency, hce]

theorem core_output_length (ctx : DateCtx) (doc : Doc) (url : String)
    (l : List Row) (h : extract_programs_core ctx doc url = some l) :
    l.length ≤ 30 := by
  simp only [extract_programs_core] at h
  split at h
  · exact absurd h (by simp)
  · split at h
    · exact absurd h (by simp)
    · simp only [Option.some.injEq] at h
      subst h
      split
      · simp [List.length_take]
      · omega

theorem core_output_dedupe (ctx : DateCtx) (doc : Doc) (url : String)
    (l : List Row) (h : extract_programs_core ctx doc url = some l) :
    ∃ nr : List Row, (∀ r ∈ nr, ∃ r₀, norm_row url r₀ = some r) ∧
      l = (if (dedupe nr).length > 30 then (dedupe nr).take 30 else dedupe nr) := by
  simp only [extract_programs_core] at h
  split at h
  · exact absurd h (by simp)
  · split at h
    · exact absurd h (by simp)
    · rename_i rls hrls nr hnr
      simp only [Option.some.injEq] at h
      refine ⟨nr, fun r hr => ?_, h.symm⟩
      obtain ⟨a, -, ha⟩ := mapMopt_mem _ _ nr hnr r hr
      exact ⟨a, ha⟩

theorem core_output_mem (ctx : DateCtx) (doc : Doc) (url : String)
    (l : List Row) (r : Row) (h : extract_programs_core ctx doc url = some l)
    (hr : r ∈ l) : ∃ r₀, norm_row url r₀ = some r := by
  obtain ⟨nr, hnr, hl⟩ := core_output_dedupe ctx doc url l h
  subst hl
  have hd : r ∈ dedupe nr := by
    revert hr
    split
    · intro hr
      exact (List.take_sublist 30 (dedupe nr)).subset hr
    · exact id
  exact hnr r ((dedupe_go_sublist nr []).subset hd)

theorem output_mem (ctx : DateCtx) (html : String) (soup : String → Doc)
    (url : String) (l : List Row) (r : Row)
    (h : extract_programs ctx html soup url = some l) (hr : r ∈ l) :
    ∃ r₀, norm_row url r₀ = some r := by
  simp only [extract_programs] at h
  split at h
  · simp only [Option.some.injEq] at h
    subst h
    simp at hr
  · exact core_output_mem ctx _ url l r h hr

/-!
  ## Claim theorems
-/

/-- C1: the pipeline does not always return a list.  On a page whose only
JSON-LD block is a well-formed CreativeWork with a name but no
description, the emitted record has a `None` type and a `None`
description, and the normalization pass raises `TypeError` at
`" ".join([title, description])` (line 309) — modelled by the `none`
result of `extract_programs`. -/
theorem C1_pipeline_raises_on_creativework :
    extract_programs null_ctx "<html>" (fun _ => c1doc) "http://x" = none := by
  decide

/-- C2: whenever `extract_programs` returns a list, the list has length at
most 30 (the truncation step), for every input document and URL. -/
theorem C2_output_capped (ctx : DateCtx) (html : String) (soup : String → Doc)
    (url : String) (l : List Row)
    (h : extract_programs ctx html soup url = some l) : l.length ≤ 30 := by
  simp only [extract_programs] at h
  split at h
  · simp only [Option.some.injEq] at h
    subst h
    simp
  · exact core_output_length ctx _ url l h

theorem C2_witness : ([] : List Row).length ≤ 30 :=
  C2_output_capped null_ctx "" (fun _ => ({} : Doc)) "u" [] (by rfl)

/-- C3: (i) no two records in a returned list share the dedup key
(lower-cased trimmed title, lower-cased trimmed url); (ii) `_dedupe`
preserves the relative first-seen order (its output is a sublist of its
input); (iii) for any key present among the candidates, exactly one
record with that key survives `_dedupe`, namely the first encountered
(the `find?` result). -/
theorem C3_dedup_key_unique :
    (∀ (ctx : DateCtx) (html : String) (soup : String → Doc) (url : String)
        (l : List Row), extract_programs ctx html soup url = some l →
        l.Pairwise (fun a b => dedup_key a ≠ dedup_key b)) ∧
    (∀ rows : List Row, List.Sublist (dedupe rows) rows) ∧
    (∀ (rows : List Row) (k : String × String) (r₀ : Row),
        rows.find? (fun r => decide (dedup_key r = k)) = some r₀ →
        r₀ ∈ dedupe rows ∧
        (dedupe rows).countP (fun r => decide (dedup_key r = k)) = 1) := by
  refine ⟨?_, ?_, ?_⟩
  · intro ctx html soup url l h
    simp only [extract_programs] at h
    split at h
    · simp only [Option.some.injEq] at h
      subst h
      simp
    · obtain ⟨nr, -, hl⟩ := core_output_dedupe ctx _ url l h
      subst hl
      have hp : (dedupe nr).Pairwise (fun a b => dedup_key a ≠ dedup_key b) :=
        dedupe_go_pairwise nr []
      split
      · exact List.Pairwise.sublist (List.take_sublist 30 _) hp
      · exact hp
  · intro rows
    exact dedupe_go_sublist rows []
  · intro rows k r₀ hfind
    exact ⟨dedupe_go_find_mem rows [] k r₀ (by simp) hfind,
           dedupe_go_countP_one rows [] k r₀ (by simp) hfind⟩

theorem C3_witness :
    ([] : List Row).Pairwise (fun a b => dedup_key a ≠ dedup_key b) ∧
    (c3row1 ∈ dedupe [c3row1, c3row2] ∧
      (dedupe [c3row1, c3row2]).countP
        (fun r => decide (dedup_key r = dedup_key c3row1)) = 1) :=
  ⟨C3_dedup_key_unique.1 null_ctx "" (fun _ => ({} : Doc)) "u" [] (by rfl),
   C3_dedup_key_unique.2.2 [c3row1, c3row2] (dedup_key c3row1) c3row1 (by decide)⟩

/-- C4 counterexample: with an empty page URL, a fallback-extracted record
reaches the output with an empty url — the claim's "every url string"
fails at `url = ""`. -/
theorem C4_counterexample :
    extract_programs null_ctx "<html>" (fun _ => c4doc) "" = some [c4row] ∧
    c4row.url = "" := by
  exact ⟨by decide, rfl⟩

/-- C4 (amended): every returned record has a non-empty title ("Program"
is substituted for an absent or whitespace-only one); the record url is
non-empty whenever the source page URL is non-empty (an absent candidate
url defaults to the page URL, so an empty page URL can propagate). -/
theorem C4_title_url_amended (ctx : DateCtx) (html : String)
    (soup : String → Doc) (url : String) (l : List Row) (r : Row)
    (h : extract_programs ctx html soup url = some l) (hr : r ∈ l) :
    (∃ t, r.title = some t ∧ t ≠ "") ∧ (url ≠ "" → r.url ≠ "") := by
  obtain ⟨r₀, hn⟩ := output_mem ctx html soup url l r h hr
  exact ⟨norm_row_title url r₀ r hn, fun hu => norm_row_url url r₀ r hn hu⟩

theorem C4_witness :
    (∃ t, demo_row.title = some t ∧ t ≠ "") ∧
    ("http://x" ≠ "" → demo_row.url ≠ "") :=
  C4_title_url_amended null_ctx "x" (fun _ => demo_doc) "http://x" [demo_row]
    demo_row (by decide) (by decide)

/-- C5 counterexample: a JSON-LD offer with `priceCurrency` CAD reaches
the output as the set currency "CAD", which is none of the canonical codes
— unmapped codes pass through. -/
theorem C5_counterexample :
    extract_programs null_ctx "<html>" (fun _ => c5doc) "http://x" = some [c5row] ∧
    c5row.currency = some "CAD" ∧ c5row.currency ≠ none ∧
    ¬ ("CAD" ∈ ["USD", "AUD", "GBP", "EUR", "INR"]) := by
  exact ⟨by decide, rfl, by decide, by decide⟩

/-- C5 (amended): every returned record's currency is either unset or an
output of the currency normalizer — a canonical code when the raw token is
recognized, otherwise the trimmed upper-cased raw token passed through. -/
theorem C5_currency_amended (ctx : DateCtx) (html : String)
    (soup : String → Doc) (url : String) (l : List Row) (r : Row)
    (h : extract_programs ctx html soup url = some l) (hr : r ∈ l) :
    r.currency = none ∨ ∃ s, r.currency = some (norm_currency_str s) := by
  obtain ⟨r₀, hn⟩ := output_mem ctx html soup url l r h hr
  exact norm_row_currency url r₀ r hn

theorem C5_witness :
    demo_row.currency = none ∨
    ∃ s, demo_row.currency = some (norm_currency_str s) :=
  C5_currency_amended null_ctx "x" (fun _ => demo_doc) "http://x" [demo_row]
    demo_row (by decide) (by decide)

/-- C6 counterexample: a record whose raw mode is "Hybrid flexible" keeps
its raw mode in the pipeline output — it is neither "Unknown" nor any
member of the claimed three-value set. -/
theorem C6_counterexample :
    extract_programs null_ctx "<html>" (fun _ => c6docH) "http://x" = some [c6rowH] ∧
    c6rowH.mode = some "Hybrid flexible" ∧
    c6rowH.mode ≠ some "Unknown" ∧ c6rowH.mode ≠ some "Online" ∧
    c6rowH.mode ≠ some "In-person" := by
  exact ⟨by decide, rfl, by decide, by decide, by decide⟩

/-- C6 (amended): "Remote session" normalizes to Online and
"On-campus only" to In-person (shown through the full pipeline); a raw
mode matching no keyword family survives unchanged when truthy
("Hybrid flexible" stays "Hybrid flexible"), and "Unknown" is substituted
only for an absent or empty mode — so every normalized mode is Online,
In-person, Unknown, or the raw mode text itself. -/
theorem C6_mode_amended :
    (extract_programs null_ctx "<html>" (fun _ => c6docR) "http://x"
        = some [c6rowR] ∧ c6rowR.mode = some "Online") ∧
    (extract_programs null_ctx "<html>" (fun _ => c6docC) "http://x"
        = some [c6rowC] ∧ c6rowC.mode = some "In-person") ∧
    norm_mode (some "Hybrid flexible") = some "Hybrid flexible" ∧
    (∀ m : Option String, norm_mode m = some "Online" ∨
        norm_mode m = some "In-person" ∨ norm_mode m = some "Unknown" ∨
        norm_mode m = m) := by
  refine ⟨⟨by decide, rfl⟩, ⟨by decide, rfl⟩, by decide, ?_⟩
  intro m
  cases m with
  | none =>
    refine Or.inr (Or.inr (Or.inl ?_))
    decide
  | some s =>
    simp only [norm_mode]
    split
    · exact Or.inl rfl
    split
    · exact Or.inr (Or.inl rfl)
    by_cases hs : s = ""
    · rw [if_pos hs]
      exact Or.inr (Or.inr (Or.inl rfl))
    · rw [if_neg hs]
      exact Or.inr (Or.inr (Or.inr rfl))

/-- C7 counterexample: on "100 to 150 USD" the first (and only) match
yields no currency — the pattern allows no whitespace between the second
amount and the trailing code, so "USD" is left outside the match. -/
theorem C7_counterexample :
    extract_prices "100 to 150 USD" = [(100, none)] ∧
    (extract_prices "100 to 150 USD").head? ≠ some (100, some "USD") := by
  exact ⟨by decide, by decide⟩

/-- C7 (amended): both range texts yield first amount 100.0 (the lower
bound), but only "$100–150" carries the normalized currency USD;
"100 to 150 USD" yields an absent currency. -/
theorem C7_price_range_amended :
    extract_prices "100 to 150 USD" = [(100, none)] ∧
    extract_prices "$100–150" = [(100, some "USD")] := by
  exact ⟨by decide, by decide⟩

/-- C8: the date normalizer.  (1) When a date parses to a day in the past
relative to now and the re-parse with next year appended succeeds at the
same calendar date of the next year and lands within 400 days of now, the
result is that next-year date.  (2) The fully-qualified "2024-01-15" is
returned unchanged as "2024-01-15" for every current date, whenever the
year-appended re-parse fails (the external parser rejects the conflicting
years), so no reinterpretation is applied. -/
theorem C8_to_iso :
    (∀ (ctx : DateCtx) (d : String) (dt alt : PyDT),
        d ≠ "" → ctx.parse d = some dt → date_lt dt ctx.now = true →
        ctx.parse (d ++ " " ++ toString (ctx.now.year + 1)) = some alt →
        alt.year = ctx.now.year + 1 → alt.month = dt.month →
        alt.day = dt.day → days_between alt ctx.now < 400 →
        to_iso ctx (some d) =
          some (toString (ctx.now.year + 1) ++ "-" ++
            pad2 dt.month ++ "-" ++ pad2 dt.day)) ∧
    (∀ (ctx : DateCtx) (dt : PyDT),
        ctx.parse "2024-01-15" = some dt →
        dt.year = 2024 → dt.month = 1 → dt.day = 15 →
        ctx.parse ("2024-01-15 " ++ toString (ctx.now.year + 1)) = none →
        to_iso ctx (some "2024-01-15") = some "2024-01-15") := by
  constructor
  · intro ctx d dt alt hne hp hlt halt hy hm hd hdays
    simp only [to_iso]
    rw [if_neg hne, hp]
    simp only [hlt, if_true]
    rw [halt]
    simp only [hdays, if_pos]
    obtain ⟨ay, am, ad, asec⟩ := alt
    simp only at hy hm hd
    subst hy
    subst hm
    subst hd
    simp [fmt_iso]
  · intro ctx dt hp hy hm hd halt
    have halt' : ctx.parse ("2024-01-15" ++ " " ++ toString (ctx.now.year + 1)) = none := halt
    have hfmt : fmt_iso dt = "2024-01-15" := by
      show toString dt.year ++ "-" ++ pad2 dt.month ++ "-" ++ pad2 dt.day = "2024-01-15"
      rw [hy, hm, hd]
      decide
    simp only [to_iso]
    rw [if_neg (by decide), hp]
    by_cases hlt : date_lt dt ctx.now = true
    · simp only [hlt, if_true]
      rw [halt']
      show some (fmt_iso dt) = some "2024-01-15"
      rw [hfmt]
    · simp only [Bool.not_eq_true] at hlt
      simp only [hlt]
      show some (fmt_iso dt) = some "2024-01-15"
      rw [hfmt]

theorem C8_witness :
    to_iso demo_ctx (some "March 3") = some "2027-03-03" ∧
    to_iso demo_ctx (some "2024-01-15") = some "2024-01-15" :=
  ⟨C8_to_iso.1 demo_ctx "March 3" ⟨2026, 3, 3, 0⟩ ⟨2027, 3, 3, 0⟩
      (by decide) (by decide) (by decide) (by decide) rfl rfl rfl (by decide),
   C8_to_iso.2 demo_ctx ⟨2024, 1, 15, 0⟩ (by decide) rfl rfl rfl (by decide)⟩

/-- C9: the empty HTML string short-circuits the pipeline: the result is
the empty list (a returned value, never an exception), for every URL and
every parser. -/
theorem C9_empty_html (ctx : DateCtx) (soup : String → Doc) (url : String) :
    extract_programs ctx "" soup url = some [] := rfl

/-- C10: the price matcher requires no currency marker: every bare numeric
token 0–99 standing alone yields exactly the pair (amount, no currency);
and in the Heuristic List and Fallback extractors the first numeric token
of the element/page text ("Grade 5") becomes the record's price 5.0 with
currency unset. -/
theorem C10_bare_number :
    (∀ n : Nat, n < 100 → extract_prices (Nat.repr n) = [((n : ℚ), none)]) ∧
    rows_from_lists [c10item] "http://b" = [c10row] ∧
    c10row.price = some 5 ∧ c10row.currency = none ∧
    rows_from_fallbacks null_ctx c10doc "http://b" = [c10frow] ∧
    c10frow.price = some 5 ∧ c10frow.currency = none := by
  exact ⟨by decide, by decide, rfl, rfl, by decide, rfl, rfl⟩

theorem C10_witness : extract_prices (Nat.repr 5) = [(((5 : Nat) : ℚ), none)] :=
  C10_bare_number.1 5 (by decide)
